import Mathlib

/-!
ESP Ambilight — verification of the frame/command protocol engine

Shallow embedding of the firmware in `nano_ambilight.ino` (Arduino Nano
variant) and the ESP32 firmware listed in `setup_guide.md`: the serial
frame decoder state machine (`handleSerialData` / the Nano `loop`), LED
frame application (`applyLedColors`), the JSON command processor
(`processJsonCommand`), calibration blink and signal-loss logic in
`loop`, the WebSocket binary path (`webSocketEvent`), and LED-mapping
persistence (`saveLEDMapping`).

Modelling conventions:
* machine integers are `Nat` (bytes are `Nat` values `< 256`; `uint8_t`
  stores truncate with `% 256` where an arbitrary value can flow in);
  `highlightLED` is `Int` as in the source (`int`, sentinel `-1`);
* the fixed C arrays (`serialRgbBuffer` with `serialBufferIndex`, the
  Nano `cmdBuffer` with `cmdIndex`) are modelled as the list of bytes
  written so far (the list length is the index); bytes of the array
  beyond the write index are stale and are never read in any behaviour
  proved below;
* `millis()` is a `Nat` passed explicitly to every routine that reads
  the clock;
* `deserializeJson` (ArduinoJson, external library) is abstracted: a
  successfully parsed command document becomes a `JsonCmdDoc`, a parse
  failure is `none`; routines that parse raw text take the parser as a
  parameter `parse : List Nat → Option JsonCmdDoc`;
* outward effects that do not feed back into the device state are
  recorded in ghost trace fields: `appliedFrames` (payloads applied by
  `applyLedColors`), `lossCount` (signal-loss log lines), `sent`
  (acknowledgement / info replies), and on the Nano model `emittedCmds`
  (command-text blocks handed to `processCommand`);
* the blocking `testPattern` animation is modelled by its final LED
  state (the routine ends with `FastLED.clear(); FastLED.show();`).
-/

set_option autoImplicit false

namespace Ambilight

/-- One pixel of the FastLED `CRGB` buffer. -/
structure CRGB where
  r : Nat
  g : Nat
  b : Nat
deriving Repr, DecidableEq, Inhabited

/-- `CRGB::Black` — the cleared pixel. -/
def CRGB.black : CRGB := ⟨0, 0, 0⟩

/-- `CRGB::White`, used as the calibration marker colour. -/
def CRGB.white : CRGB := ⟨255, 255, 255⟩

/-- `FastLED.clear()`: every pixel of the buffer becomes black. -/
def fastLedClear (leds : List CRGB) : List CRGB :=
  List.replicate leds.length CRGB.black

/-- Protocol constant `MAGIC_BYTE_1 = 0xAD`. -/
def MAGIC_BYTE_1 : Nat := 0xAD

/-- Protocol constant `MAGIC_BYTE_2 = 0xDA`. -/
def MAGIC_BYTE_2 : Nat := 0xDA

/-- `#define MAX_LEDS 300` (ESP32 firmware). -/
def MAX_LEDS : Nat := 300

/-- `SERIAL_TIMEOUT_MS = 50` (ESP32 firmware). -/
def SERIAL_TIMEOUT_MS : Nat := 50

/-- `SIGNAL_TIMEOUT_MS = 3000`. -/
def SIGNAL_TIMEOUT_MS : Nat := 3000

/-- XOR fold of a byte list, as computed by the checksum loops
(`checksum = 0; for (...) checksum ^= buf[i];`). -/
def xorFold (l : List Nat) : Nat :=
  l.foldl Nat.xor 0

/-- One entry of the JSON `mapping` array: `mapping[i]["x"]` and
`mapping[i]["y"]`, each `none` when the key is absent or not an
integer (ArduinoJson then yields the `| 0` default). -/
structure MapEntry where
  x : Option Nat
  y : Option Nat
deriving Repr, DecidableEq, Inhabited

/-- A successfully parsed command document.  `cmd` is `doc["cmd"] | ""`
(missing field gives `""`); the other fields are `none` when absent or
of the wrong JSON type, in which case the source's `|` defaults apply. -/
structure JsonCmdDoc where
  cmd : String
  led : Option Int
  value : Option Nat
  mapping : Option (List MapEntry)
deriving Repr, DecidableEq, Inhabited

/-- The ESP32 firmware's global mutable state (the variables of
`setup_guide.md` that the verified routines touch), plus ghost trace
fields (see the module docstring). -/
structure DeviceState where
  numLeds : Nat
  leds : List CRGB
  calibrationMode : Bool
  highlightLED : Int
  currentBrightness : Nat
  ledsActive : Bool
  lastValidFrame : Nat
  lastActiveSource : String
  ledMap : List (Nat × Nat)
  store : List Nat
  serialSyncState : Nat
  serialBuffer : List Nat
  lastSerialByte : Nat
  lastBlink : Nat
  blinkState : Bool
  appliedFrames : List (List Nat)
  lossCount : Nat
  sent : List String
deriving Repr, DecidableEq, Inhabited

/-- The write loop of `applyLedColors`: for `i` from `0` to `count - 1`
set `leds[i]` from bytes `3i, 3i+1, 3i+2` of `rgbData`. -/
def writeLeds (leds : List CRGB) (rgbData : List Nat) : Nat → List CRGB
  | 0 => leds
  | k + 1 =>
    (writeLeds leds rgbData k).set k
      ⟨rgbData.getD (3 * k) 0, rgbData.getD (3 * k + 1) 0, rgbData.getD (3 * k + 2) 0⟩

/-- `applyLedColors(rgbData, dataLen, source)` at time `t`
(`setup_guide.md`): no-op during calibration; otherwise writes
`min (dataLen / 3) numLeds` pixels, shows, and refreshes the
signal-liveness bookkeeping.  The applied payload prefix is recorded in
the ghost trace `appliedFrames`. -/
def applyLedColors (s : DeviceState) (rgbData : List Nat) (dataLen : Nat)
    (t : Nat) (source : String) : DeviceState :=
  if s.calibrationMode then s
  else
    let ledCount := min (dataLen / 3) s.numLeds
    { s with
      leds := writeLeds s.leds rgbData ledCount
      lastValidFrame := t
      ledsActive := true
      lastActiveSource := source
      appliedFrames := s.appliedFrames ++ [rgbData.take dataLen] }

/-- The calibration blink block of `loop()`: guarded by
`calibrationMode && highlightLED >= 0 && highlightLED < numLeds` and a
500 ms period; clears the buffer and, in the lit phase, sets the single
highlighted pixel to white. -/
def blinkStep (s : DeviceState) (t : Nat) : DeviceState :=
  if s.calibrationMode ∧ 0 ≤ s.highlightLED ∧ s.highlightLED < (s.numLeds : Int) then
    if t - s.lastBlink > 500 then
      let cleared := fastLedClear s.leds
      { s with
        leds := if s.blinkState then cleared.set s.highlightLED.toNat CRGB.white else cleared
        blinkState := ¬s.blinkState
        lastBlink := t }
    else s
  else s

/-- The signal-loss block of `loop()`: if `ledsActive` and more than
`SIGNAL_TIMEOUT_MS` elapsed since `lastValidFrame`, clear the strip,
drop `ledsActive`, and log the loss (ghost counter `lossCount`). -/
def signalLossStep (s : DeviceState) (t : Nat) : DeviceState :=
  if s.ledsActive ∧ t - s.lastValidFrame > SIGNAL_TIMEOUT_MS then
    { s with
      leds := fastLedClear s.leds
      ledsActive := false
      lossCount := s.lossCount + 1 }
  else s

/-- One pass of `loop()` at time `t` in which no transport delivered
any byte: only the calibration blink block and the signal-loss block
run, in that order. -/
def loopTickIdle (s : DeviceState) (t : Nat) : DeviceState :=
  signalLossStep (blinkStep s t) t

/-- The RAM update loop of the `save_map` branch:
`for (i = 0; i < numLeds && i < mapping.size(); i++)` assign
`ledMap[i].screenX/screenY` (uint8_t stores, hence `% 256`) from entry
`i` with missing coordinates defaulting to `0`. -/
def updateLedMap (m : List (Nat × Nat)) (arr : List MapEntry) : Nat → List (Nat × Nat)
  | 0 => m
  | k + 1 =>
    (updateLedMap m arr k).set k
      (((arr.getD k default).x.getD 0) % 256, ((arr.getD k default).y.getD 0) % 256)

/-- `uint16_t value = (screenX << 8) | screenY` — the packed form one
mapping entry is persisted under key `"m" + i`. -/
def packMapEntry (p : Nat × Nat) : Nat := p.1 * 256 + p.2

/-- `saveLEDMapping()`: write the packed first `min numLeds MAX_LEDS`
RAM entries into the persistent store. -/
def writeStore (st : List Nat) (m : List (Nat × Nat)) : Nat → List Nat
  | 0 => st
  | k + 1 => (writeStore st m k).set k (packMapEntry (m.getD k (0, 0)))

/-- `saveLEDMapping` applied to a device state. -/
def saveLEDMapping (s : DeviceState) : DeviceState :=
  { s with store := writeStore s.store s.ledMap (min s.numLeds MAX_LEDS) }

/-- `processJsonCommand` (`setup_guide.md`): dispatch on `doc["cmd"]`.
`parsed = none` is a `DeserializationError`, which only logs and
returns.  Replies and acknowledgements go to the ghost trace `sent`.
The blocking `testPattern()` animation is modelled by its final LED
state (cleared strip). -/
def processJsonCommand (s : DeviceState) (parsed : Option JsonCmdDoc) : DeviceState :=
  match parsed with
  | none => s
  | some doc =>
    if doc.cmd = "info" then
      { s with sent := s.sent ++ ["info"] }
    else if doc.cmd = "calibrate_start" then
      { s with
        calibrationMode := true
        highlightLED := -1
        sent := s.sent ++ ["ack:calibrate_start"] }
    else if doc.cmd = "calibrate_end" then
      { s with
        calibrationMode := false
        highlightLED := -1
        leds := fastLedClear s.leds
        sent := s.sent ++ ["ack:calibrate_end"] }
    else if doc.cmd = "highlight" then
      { s with highlightLED := doc.led.getD (-1) }
    else if doc.cmd = "save_map" then
      match doc.mapping with
      | none => s
      | some arr =>
        let s' := { s with ledMap := updateLedMap s.ledMap arr (min s.numLeds arr.length) }
        let s'' := saveLEDMapping s'
        { s'' with sent := s''.sent ++ ["ack:save_map"] }
    else if doc.cmd = "test_pattern" then
      { s with leds := fastLedClear s.leds, sent := s.sent ++ ["ack:test_pattern"] }
    else if doc.cmd = "brightness" then
      { s with currentBrightness := (doc.value.getD 255) % 256 }
    else if doc.cmd = "clear" then
      { s with
        leds := fastLedClear s.leds
        ledsActive := false
        sent := s.sent ++ ["ack:clear"] }
    else s

/-- The inline JSON read of `handleSerialData`'s `'{'` branch: starting
after the `'{'`, collect bytes up to and including the first `'}'`.
The source loop breaks on `'}'` or after 100 ms; a window in which no
`'}'` arrives is modelled as consuming every byte that was available
(first component: collected bytes, second: the unread remainder). -/
def readUntilClose : List Nat → (List Nat × List Nat)
  | [] => ([], [])
  | c :: cs =>
    if c = 125 then ([c], cs)
    else
      let p := readUntilClose cs
      (c :: p.1, p.2)

theorem readUntilClose_snd_length_le (l : List Nat) :
    (readUntilClose l).2.length ≤ l.length := by
  induction l with
  | nil => simp [readUntilClose]
  | cons c cs ih =>
    by_cases h : c = 125
    · simp [readUntilClose, h]
    · simp only [readUntilClose, if_neg h, List.length_cons]
      omega

/-- The body of `handleSerialData`'s `while (Serial.available())` loop
(`setup_guide.md`), ESP32 USB transport, at entry time `t`, with the
JSON parser abstracted as `parse`.  Each consumed byte refreshes
`lastSerialByte`; the switch on `serialSyncState` is translated
case-for-case.  In state `2` the current global `numLeds` is re-read on
every byte, exactly as `serialBufferIndex >= numLeds * 3` does. -/
def serialLoop (parse : List Nat → Option JsonCmdDoc) (t : Nat) :
    DeviceState → List Nat → DeviceState
  | s, [] => s
  | s, b :: bs =>
    let s := { s with lastSerialByte := t }
    if s.serialSyncState = 0 then
      if b = MAGIC_BYTE_1 then
        serialLoop parse t { s with serialSyncState := 1 } bs
      else if b = 123 then
        let p := readUntilClose bs
        serialLoop parse t (processJsonCommand s (parse (123 :: p.1))) p.2
      else
        serialLoop parse t s bs
    else if s.serialSyncState = 1 then
      if b = MAGIC_BYTE_2 then
        serialLoop parse t { s with serialSyncState := 2, serialBuffer := [] } bs
      else
        serialLoop parse t { s with serialSyncState := 0 } bs
    else if s.serialSyncState = 2 then
      let s2 := { s with serialBuffer := s.serialBuffer ++ [b] }
      if s2.serialBuffer.length ≥ s2.numLeds * 3 then
        serialLoop parse t { s2 with serialSyncState := 3 } bs
      else
        serialLoop parse t s2 bs
    else
      let checksum := xorFold (s.serialBuffer.take (s.numLeds * 3))
      let s3 := if checksum = b then applyLedColors s s.serialBuffer (s.numLeds * 3) t "USB" else s
      serialLoop parse t { s3 with serialSyncState := 0, serialBuffer := [] } bs
termination_by _ l => l.length
decreasing_by
  all_goals simp_wf
  all_goals first
    | omega
    | exact Nat.lt_succ_of_le (readUntilClose_snd_length_le bs)

/-- The timeout check at the top of `handleSerialData`: a non-idle
decoder that saw no byte for more than `SERIAL_TIMEOUT_MS` is reset. -/
def serialTimeoutReset (s : DeviceState) (t : Nat) : DeviceState :=
  if s.serialSyncState > 0 ∧ t - s.lastSerialByte > SERIAL_TIMEOUT_MS then
    { s with serialSyncState := 0, serialBuffer := [] }
  else s

/-- `handleSerialData` at entry time `t` on a burst of available
bytes: the timeout check, then the byte-draining loop. -/
def handleSerialData (parse : List Nat → Option JsonCmdDoc) (t : Nat)
    (s : DeviceState) (input : List Nat) : DeviceState :=
  serialLoop parse t (serialTimeoutReset s t) input

/-- The `/api/save` web handler's LED-count update: `numLeds` is set
only when the submitted value lies in `1 .. MAX_LEDS`; no restart is
required, so this can run between two bursts of serial bytes. -/
def webSaveLeds (s : DeviceState) (newLeds : Int) : DeviceState :=
  if 1 ≤ newLeds ∧ newLeds ≤ (MAX_LEDS : Int) then
    { s with numLeds := newLeds.toNat }
  else s

/-- The `WStype_BIN` case of `webSocketEvent`: a binary RGB payload of
`length` bytes is applied only outside calibration mode and only when
at least `numLeds * 3` bytes long (the channel carries no checksum). -/
def webSocketEventBin (s : DeviceState) (payload : List Nat) (length : Nat)
    (t : Nat) : DeviceState :=
  if ¬s.calibrationMode ∧ length ≥ s.numLeds * 3 then
    applyLedColors s payload length t "WebSocket"
  else s

/-! ## The Arduino Nano variant (`nano_ambilight.ino`) -/

/-- `#define NUM_LEDS 16` (Nano firmware). -/
def NUM_LEDS : Nat := 16

/-- `#define FRAME_SIZE (NUM_LEDS * 3)` = 48. -/
def FRAME_SIZE : Nat := NUM_LEDS * 3

/-- Nano `TIMEOUT_MS = 30`. -/
def TIMEOUT_MS : Nat := 30

/-- The byte list of an ASCII string literal (for the Nano's
`strstr` patterns). -/
def bytes (s : String) : List Nat :=
  s.data.map Char.toNat

/-- Index of the first occurrence of `pat` in `l` (the offset `strstr`
returns), or `none` when `strstr` yields `NULL`. -/
def findSubIdx (pat : List Nat) : List Nat → Option Nat
  | [] => if pat.isPrefixOf ([] : List Nat) then some 0 else none
  | c :: cs =>
    if pat.isPrefixOf (c :: cs) then some 0
    else (findSubIdx pat cs).map (· + 1)

/-- The digit-consuming loop of `atoi`. -/
def atoiDigits : List Nat → Nat → Nat
  | [], acc => acc
  | c :: cs, acc =>
    if 48 ≤ c ∧ c ≤ 57 then atoiDigits cs (acc * 10 + (c - 48)) else acc

/-- `atoi`: skip leading whitespace, optional sign, then digits. -/
def atoiModel (l : List Nat) : Int :=
  let l1 := l.dropWhile (fun c => decide (c = 32 ∨ 9 ≤ c ∧ c ≤ 13))
  match l1 with
  | 45 :: rest => -(atoiDigits rest 0 : Int)
  | 43 :: rest => (atoiDigits rest 0 : Int)
  | _ => (atoiDigits l1 0 : Int)

/-- The Nano firmware's global state plus ghost traces
(`appliedFrames`: frames written to the strip by the checksum-valid
branch; `emittedCmds`: command-text blocks handed to
`processCommand`). -/
structure NanoState where
  leds : List CRGB
  brightness : Nat
  rgbBuffer : List Nat
  syncState : Nat
  lastByteTime : Nat
  cmdBuffer : List Nat
  inJsonCmd : Bool
  appliedFrames : List (List Nat)
  emittedCmds : List (List Nat)
deriving Repr, DecidableEq, Inhabited

/-- Nano `processCommand`: `strstr`-based dispatch.  `brightness`
converts the text after `"value":` with `atoi` into a `uint8_t`;
`clear` clears the strip; `info` only prints; `test_pattern` runs the
blocking animation, whose final LED state is a cleared strip. -/
def nanoProcessCommand (s : NanoState) (cmd : List Nat) : NanoState :=
  let s := { s with emittedCmds := s.emittedCmds ++ [cmd] }
  if (findSubIdx (bytes "\"brightness\"") cmd).isSome then
    match findSubIdx (bytes "\"value\":") cmd with
    | some i => { s with brightness := ((atoiModel (cmd.drop (i + 8))).emod 256).toNat }
    | none => s
  else if (findSubIdx (bytes "\"clear\"") cmd).isSome then
    { s with leds := fastLedClear s.leds }
  else if (findSubIdx (bytes "\"info\"") cmd).isSome then
    s
  else if (findSubIdx (bytes "\"test_pattern\"") cmd).isSome then
    { s with leds := fastLedClear s.leds }
  else s

/-- The body of the Nano `loop()`'s `while (Serial.available())`:
one byte through the `syncState` switch.  State `0` folds in the JSON
command accumulation (`inJsonCmd`/`cmdIndex`), including the 63-byte
capacity check `cmdIndex < sizeof(cmdBuffer) - 1`. -/
def nanoStep (t : Nat) (s : NanoState) (b : Nat) : NanoState :=
  let s := { s with lastByteTime := t }
  if s.syncState = 0 then
    if b = MAGIC_BYTE_1 then { s with syncState := 1 }
    else if b = 123 then { s with cmdBuffer := [123], inJsonCmd := true }
    else if s.inJsonCmd ∧ s.cmdBuffer.length > 0 then
      if s.cmdBuffer.length < 63 then
        let cb := s.cmdBuffer ++ [b]
        if b = 125 then
          let s1 := nanoProcessCommand { s with cmdBuffer := cb } cb
          { s1 with cmdBuffer := [], inJsonCmd := false }
        else { s with cmdBuffer := cb }
      else { s with cmdBuffer := [], inJsonCmd := false }
    else s
  else if s.syncState = 1 then
    if b = MAGIC_BYTE_2 then { s with syncState := 2, rgbBuffer := [] }
    else { s with syncState := 0 }
  else if s.syncState = 2 then
    let s2 := { s with rgbBuffer := s.rgbBuffer ++ [b] }
    if s2.rgbBuffer.length ≥ FRAME_SIZE then { s2 with syncState := 3 } else s2
  else
    let checksum := xorFold (s.rgbBuffer.take FRAME_SIZE)
    let s3 :=
      if checksum = b then
        { s with
          leds := writeLeds s.leds s.rgbBuffer NUM_LEDS
          appliedFrames := s.appliedFrames ++ [s.rgbBuffer.take FRAME_SIZE] }
      else s
    { s3 with syncState := 0, rgbBuffer := [] }

/-- Draining one burst of available bytes on the Nano. -/
def nanoRun (t : Nat) (s : NanoState) (input : List Nat) : NanoState :=
  input.foldl (nanoStep t) s

/-- The timeout check at the top of the Nano `loop()`. -/
def nanoTimeoutReset (s : NanoState) (t : Nat) : NanoState :=
  if s.syncState > 0 ∧ t - s.lastByteTime > TIMEOUT_MS then
    { s with syncState := 0, rgbBuffer := [] }
  else s

/-- One Nano `loop()` pass at time `t` over a burst of bytes. -/
def nanoLoopTick (t : Nat) (s : NanoState) (input : List Nat) : NanoState :=
  nanoRun t (nanoTimeoutReset s t) input

/-- The decoder-buffer invariant maintained while `numLeds` is not
changed underneath the decoder: the partial payload buffer never holds
more than `numLeds * 3` bytes, strictly fewer while still reading. -/
def serialBufferInv (s : DeviceState) : Prop :=
  1 ≤ s.numLeds ∧ s.serialBuffer.length ≤ s.numLeds * 3 ∧
    (s.serialSyncState = 2 → s.serialBuffer.length < s.numLeds * 3)

/-! ## Sample states for concrete runs -/

/-- A JSON parser that fails on every input (no claim below exercises a
successful parse through the raw-text path). -/
def noParse : List Nat → Option JsonCmdDoc := fun _ => none

/-- A small concrete ESP32 state: 1 active LED, 3-pixel buffer, idle
decoder, calibration off. -/
def espSample : DeviceState :=
  { numLeds := 1
    leds := List.replicate 3 CRGB.black
    calibrationMode := false
    highlightLED := -1
    currentBrightness := 255
    ledsActive := false
    lastValidFrame := 0
    lastActiveSource := ""
    ledMap := List.replicate 3 (0, 0)
    store := List.replicate 3 0
    serialSyncState := 0
    serialBuffer := []
    lastSerialByte := 0
    lastBlink := 0
    blinkState := false
    appliedFrames := []
    lossCount := 0
    sent := [] }

/-- `espSample` with 60 LEDs, as the firmware's default `numLeds`. -/
def espSample60 : DeviceState :=
  { espSample with numLeds := 60, leds := List.replicate 60 CRGB.black }

/-- `espSample` with output live at time 0. -/
def espSampleActive : DeviceState :=
  { espSample with ledsActive := true, lastValidFrame := 0 }

/-- A concrete Nano state mirroring the reset state after `setup()`. -/
def nanoSample : NanoState :=
  { leds := List.replicate 16 CRGB.black
    brightness := 255
    rgbBuffer := []
    syncState := 0
    lastByteTime := 0
    cmdBuffer := []
    inJsonCmd := false
    appliedFrames := []
    emittedCmds := [] }

/-! ## Helper lemmas -/

theorem writeLeds_length (leds : List CRGB) (data : List Nat) (k : Nat) :
    (writeLeds leds data k).length = leds.length := by
  induction k with
  | zero => rfl
  | succ k ih => simp [writeLeds, ih]

theorem writeLeds_getElem?_ge (leds : List CRGB) (data : List Nat) {k i : Nat}
    (h : k ≤ i) : (writeLeds leds data k)[i]? = leds[i]? := by
  induction k with
  | zero => rfl
  | succ k ih =>
    rw [writeLeds, List.getElem?_set_ne (by omega), ih (by omega)]

theorem writeLeds_getElem?_lt (leds : List CRGB) (data : List Nat) {k i : Nat}
    (hik : i < k) (hil : i < leds.length) :
    (writeLeds leds data k)[i]? =
      some ⟨data.getD (3 * i) 0, data.getD (3 * i + 1) 0, data.getD (3 * i + 2) 0⟩ := by
  induction k with
  | zero => omega
  | succ k ih =>
    rw [writeLeds]
    by_cases hik' : i = k
    · subst hik'
      rw [List.getElem?_set_self (by rw [writeLeds_length]; omega)]
    · rw [List.getElem?_set_ne (by omega), ih (by omega)]

theorem writeLeds_congr (leds : List CRGB) {data data' : List Nat} {k : Nat}
    (h : ∀ j, j < 3 * k → data.getD j 0 = data'.getD j 0) :
    writeLeds leds data k = writeLeds leds data' k := by
  induction k with
  | zero => rfl
  | succ k ih =>
    rw [writeLeds, writeLeds, ih (fun j hj => h j (by omega)),
      h (3 * k) (by omega), h (3 * k + 1) (by omega), h (3 * k + 2) (by omega)]

/-! ## C9: frame application touches only the first `min (L / 3) numLeds` pixels -/

/-- C9: applying a decoded RGB payload of byte length `L` writes only
the first `min (L / 3) numLeds)` LEDs (outside calibration each of
those receives its RGB triple); every LED at or beyond that count is
left unchanged, and payload bytes beyond the first `numLeds * 3` have
no influence on the LED buffer. -/
theorem applyLedColors_writes_only_bounded (s : DeviceState) (data data' : List Nat)
    (L t : Nat) (src : String) :
    (∀ i, min (L / 3) s.numLeds ≤ i →
      (applyLedColors s data L t src).leds[i]? = s.leds[i]?) ∧
    ((∀ j, j < s.numLeds * 3 → data.getD j 0 = data'.getD j 0) →
      (applyLedColors s data L t src).leds = (applyLedColors s data' L t src).leds) ∧
    (s.calibrationMode = false → ∀ i, i < min (L / 3) s.numLeds → i < s.leds.length →
      (applyLedColors s data L t src).leds[i]? =
        some ⟨data.getD (3 * i) 0, data.getD (3 * i + 1) 0, data.getD (3 * i + 2) 0⟩) := by
  refine ⟨?_, ?_, ?_⟩
  · intro i hi
    unfold applyLedColors
    split
    · rfl
    · exact writeLeds_getElem?_ge _ _ hi
  · intro hagree
    unfold applyLedColors
    split
    · rfl
    · show writeLeds s.leds data (min (L / 3) s.numLeds) =
        writeLeds s.leds data' (min (L / 3) s.numLeds)
      exact writeLeds_congr _ (fun j hj => hagree j (by omega))
  · intro hcal i hik hil
    unfold applyLedColors
    rw [if_neg (by simp [hcal])]
    exact writeLeds_getElem?_lt _ _ hik hil

/-- C9 witness: a 2-triple payload applied to the 1-LED sample state
writes pixel 0 and leaves pixel 1 untouched. -/
theorem applyLedColors_writes_only_bounded_witness :
    (applyLedColors espSample [10, 20, 30, 40, 50, 60] 6 7 "USB").leds[1]? =
        espSample.leds[1]? ∧
      (applyLedColors espSample [10, 20, 30, 40, 50, 60] 6 7 "USB").leds[0]? =
        some ⟨10, 20, 30⟩ :=
  ⟨(applyLedColors_writes_only_bounded espSample [10, 20, 30, 40, 50, 60] [] 6 7 "USB").1
      1 (by decide),
    by
      have h := (applyLedColors_writes_only_bounded espSample
        [10, 20, 30, 40, 50, 60] [] 6 7 "USB").2.2 (by decide) 0 (by decide) (by decide)
      simpa using h⟩

/-! ## C10: short or calibration-time WebSocket binary frames are ignored -/

/-- C10: a WebSocket binary message shorter than `numLeds * 3` bytes
leaves the whole device state unchanged, and so does any binary
message while calibration mode is active. -/
theorem webSocketBin_short_or_calibration_ignored (s : DeviceState)
    (payload : List Nat) (len t : Nat) :
    (len < s.numLeds * 3 → webSocketEventBin s payload len t = s) ∧
    (s.calibrationMode = true → webSocketEventBin s payload len t = s) := by
  constructor
  · intro h
    unfold webSocketEventBin
    rw [if_neg]
    intro hc
    omega
  · intro h
    unfold webSocketEventBin
    rw [if_neg]
    intro hc
    exact hc.1 (by simp [h])

/-- C10 witness: a 2-byte message on the 1-LED sample (needs 3 bytes)
is dropped, and any message during calibration is dropped. -/
theorem webSocketBin_short_or_calibration_ignored_witness :
    webSocketEventBin espSample [9, 9] 2 5 = espSample ∧
      webSocketEventBin { espSample with calibrationMode := true } [1, 2, 3] 3 5 =
        { espSample with calibrationMode := true } :=
  ⟨(webSocketBin_short_or_calibration_ignored espSample [9, 9] 2 5).1 (by decide),
    (webSocketBin_short_or_calibration_ignored
      { espSample with calibrationMode := true } [1, 2, 3] 3 5).2 rfl⟩

/-! ## C8: parse failures and unknown command names have no effect -/

/-- C8: a command block that fails JSON parsing changes nothing, and a
successfully parsed document whose `cmd` matches none of the
recognized names likewise changes nothing (and is not an error). -/
theorem processJsonCommand_fail_or_unknown_no_effect (s : DeviceState) (d : JsonCmdDoc) :
    processJsonCommand s none = s ∧
    (d.cmd ≠ "info" → d.cmd ≠ "calibrate_start" → d.cmd ≠ "calibrate_end" →
      d.cmd ≠ "highlight" → d.cmd ≠ "save_map" → d.cmd ≠ "test_pattern" →
      d.cmd ≠ "brightness" → d.cmd ≠ "clear" →
      processJsonCommand s (some d) = s) := by
  constructor
  · rfl
  · intro h1 h2 h3 h4 h5 h6 h7 h8
    simp [processJsonCommand, h1, h2, h3, h4, h5, h6, h7, h8]

/-- C8 witness: a parse failure and the unrecognized name `"bogus"`
both leave the sample state untouched. -/
theorem processJsonCommand_fail_or_unknown_no_effect_witness :
    processJsonCommand espSample none = espSample ∧
      processJsonCommand espSample (some ⟨"bogus", none, none, none⟩) = espSample :=
  ⟨(processJsonCommand_fail_or_unknown_no_effect espSample
      ⟨"bogus", none, none, none⟩).1,
    (processJsonCommand_fail_or_unknown_no_effect espSample
      ⟨"bogus", none, none, none⟩).2 (by decide) (by decide) (by decide) (by decide)
      (by decide) (by decide) (by decide) (by decide)⟩

/-! ## C2: signal loss clears the strip exactly once -/

theorem blinkStep_preserves (s : DeviceState) (t : Nat) :
    (blinkStep s t).ledsActive = s.ledsActive ∧
    (blinkStep s t).lastValidFrame = s.lastValidFrame ∧
    (blinkStep s t).lossCount = s.lossCount ∧
    (blinkStep s t).leds.length = s.leds.length := by
  unfold blinkStep
  split
  · split
    · refine ⟨rfl, rfl, rfl, ?_⟩
      split <;> simp [fastLedClear]
    · exact ⟨rfl, rfl, rfl, rfl⟩
  · exact ⟨rfl, rfl, rfl, rfl⟩

/-- C2: if `ledsActive` and more than `SIGNAL_TIMEOUT_MS` (3000 ms)
passed since `lastValidFrame`, the next loop tick clears the strip,
drops `ledsActive`, and logs the loss exactly once; a tick with
`ledsActive = false` neither clears nor logs again; a valid frame
(outside calibration) re-arms `ledsActive`. -/
theorem signalLoss_clears_exactly_once (s : DeviceState) (t : Nat) (data : List Nat)
    (L : Nat) (src : String) :
    (s.ledsActive = true → t - s.lastValidFrame > SIGNAL_TIMEOUT_MS →
      (loopTickIdle s t).leds = List.replicate s.leds.length CRGB.black ∧
      (loopTickIdle s t).ledsActive = false ∧
      (loopTickIdle s t).lossCount = s.lossCount + 1) ∧
    (s.ledsActive = false →
      signalLossStep s t = s ∧
      (loopTickIdle s t).ledsActive = false ∧
      (loopTickIdle s t).lossCount = s.lossCount) ∧
    (s.calibrationMode = false → (applyLedColors s data L t src).ledsActive = true) := by
  obtain ⟨hA, hV, hC, hL⟩ := blinkStep_preserves s t
  refine ⟨?_, ?_, ?_⟩
  · intro hact htime
    unfold loopTickIdle signalLossStep
    rw [if_pos (by rw [hA, hV]; exact ⟨by simp [hact], htime⟩)]
    exact ⟨by simp [fastLedClear, hL], rfl, by simp [hC]⟩
  · intro hact
    refine ⟨?_, ?_⟩
    · unfold signalLossStep
      rw [if_neg (fun hc => by simp [hact] at hc)]
    · unfold loopTickIdle signalLossStep
      rw [if_neg (fun hc => by rw [hA, hact] at hc; simp at hc)]
      exact ⟨by rw [hA, hact], hC⟩
  · intro hcal
    unfold applyLedColors
    rw [if_neg (by simp [hcal])]

/-- C2 witness: with output live since time 0, the idle tick at 3001 ms
goes dark exactly once; at a dead output nothing fires. -/
theorem signalLoss_clears_exactly_once_witness :
    ((loopTickIdle espSampleActive 3001).ledsActive = false ∧
      (loopTickIdle espSampleActive 3001).lossCount = espSampleActive.lossCount + 1) ∧
      signalLossStep espSample 9999 = espSample :=
  ⟨⟨((signalLoss_clears_exactly_once espSampleActive 3001 [] 0 "USB").1 rfl
       (by decide)).2.1,
    ((signalLoss_clears_exactly_once espSampleActive 3001 [] 0 "USB").1 rfl
       (by decide)).2.2⟩,
    ((signalLoss_clears_exactly_once espSample 9999 [] 0 "USB").2.1 rfl).1⟩

/-! ## C3: highlight command bounds check -/

/-- C3 counterexample: `Highlight(1000)` on a 60-LED device stores
`highlightLED = 1000` — an out-of-range, non-sentinel value — so the
claimed invariant "`highlightIndex`, when present, is `< ledCount`"
fails right after the command is processed. -/
theorem highlight_out_of_range_is_stored :
    (processJsonCommand espSample60 (some ⟨"highlight", some 1000, none, none⟩)).highlightLED
        = 1000 ∧
      espSample60.numLeds = 60 ∧
      ¬((processJsonCommand espSample60
            (some ⟨"highlight", some 1000, none, none⟩)).highlightLED <
          (espSample60.numLeds : Int)) ∧
      (processJsonCommand espSample60
          (some ⟨"highlight", some 1000, none, none⟩)).highlightLED ≠ -1 := by
  decide

/-- C3 amended: `Highlight(index)` stores the given index
unconditionally (missing or non-integer `led` yields the sentinel
`-1`); the bounds check lives in the calibration blink logic instead,
so an out-of-range `highlightLED` behaves as "no highlight" — the
blink tick leaves the state untouched. -/
theorem highlight_raw_store_blink_guard (s : DeviceState) (d : JsonCmdDoc) (t : Nat) :
    (d.cmd = "highlight" →
      (processJsonCommand s (some d)).highlightLED = d.led.getD (-1)) ∧
    (¬(0 ≤ s.highlightLED ∧ s.highlightLED < (s.numLeds : Int)) → blinkStep s t = s) := by
  constructor
  · intro h
    simp [processJsonCommand, h]
  · intro h
    unfold blinkStep
    rw [if_neg (fun hc => h ⟨hc.2.1, hc.2.2⟩)]

/-- C3 amended witness: `Highlight(5)` stores 5; a blink tick at an
out-of-range stored index changes nothing. -/
theorem highlight_raw_store_blink_guard_witness :
    (processJsonCommand espSample60 (some ⟨"highlight", some 5, none, none⟩)).highlightLED
        = 5 ∧
      blinkStep { espSample60 with calibrationMode := true, highlightLED := 1000 } 600 =
        { espSample60 with calibrationMode := true, highlightLED := 1000 } :=
  ⟨(highlight_raw_store_blink_guard espSample60 ⟨"highlight", some 5, none, none⟩ 600).1 rfl,
    (highlight_raw_store_blink_guard
      { espSample60 with calibrationMode := true, highlightLED := 1000 }
      ⟨"", none, none, none⟩ 600).2 (by decide)⟩

/-! ## C7: SaveMap effect is bounded by `ledCount` -/

theorem updateLedMap_length (m : List (Nat × Nat)) (arr : List MapEntry) (k : Nat) :
    (updateLedMap m arr k).length = m.length := by
  induction k with
  | zero => rfl
  | succ k ih => simp [updateLedMap, ih]

theorem updateLedMap_getD_ge (m : List (Nat × Nat)) (arr : List MapEntry) {k i : Nat}
    (h : k ≤ i) : (updateLedMap m arr k).getD i (0, 0) = m.getD i (0, 0) := by
  rw [List.getD_eq_getElem?_getD, List.getD_eq_getElem?_getD]
  congr 1
  induction k with
  | zero => rfl
  | succ k ih =>
    rw [updateLedMap, List.getElem?_set_ne (by omega), ih (by omega)]

theorem updateLedMap_getD_lt (m : List (Nat × Nat)) (arr : List MapEntry) {k i : Nat}
    (hik : i < k) (him : i < m.length) :
    (updateLedMap m arr k).getD i (0, 0) =
      (((arr.getD i default).x.getD 0) % 256, ((arr.getD i default).y.getD 0) % 256) := by
  rw [List.getD_eq_getElem?_getD]
  have : (updateLedMap m arr k)[i]? =
      some (((arr.getD i default).x.getD 0) % 256, ((arr.getD i default).y.getD 0) % 256) := by
    induction k with
    | zero => omega
    | succ k ih =>
      rw [updateLedMap]
      by_cases hik' : i = k
      · subst hik'
        rw [List.getElem?_set_self (by rw [updateLedMap_length]; omega)]
      · rw [List.getElem?_set_ne (by omega), ih (by omega)]
  rw [this]
  rfl

theorem updateLedMap_congr (m : List (Nat × Nat)) {arr arr' : List MapEntry} {k : Nat}
    (h : ∀ j, j < k → arr.getD j default = arr'.getD j default) :
    updateLedMap m arr k = updateLedMap m arr' k := by
  induction k with
  | zero => rfl
  | succ k ih =>
    rw [updateLedMap, updateLedMap, ih (fun j hj => h j (by omega)), h k (by omega)]

theorem writeStore_length (st : List Nat) (m : List (Nat × Nat)) (k : Nat) :
    (writeStore st m k).length = st.length := by
  induction k with
  | zero => rfl
  | succ k ih => simp [writeStore, ih]

theorem writeStore_getElem?_ge (st : List Nat) (m : List (Nat × Nat)) {k i : Nat}
    (h : k ≤ i) : (writeStore st m k)[i]? = st[i]? := by
  induction k with
  | zero => rfl
  | succ k ih =>
    rw [writeStore, List.getElem?_set_ne (by omega), ih (by omega)]

theorem writeStore_getElem?_lt (st : List Nat) (m : List (Nat × Nat)) {k i : Nat}
    (hik : i < k) (hst : i < st.length) :
    (writeStore st m k)[i]? = some (packMapEntry (m.getD i (0, 0))) := by
  induction k with
  | zero => omega
  | succ k ih =>
    rw [writeStore]
    by_cases hik' : i = k
    · subst hik'
      rw [List.getElem?_set_self (by rw [writeStore_length]; omega)]
    · rw [List.getElem?_set_ne (by omega), ih (by omega)]

theorem processJsonCommand_saveMap (s : DeviceState) (d : JsonCmdDoc)
    (arr : List MapEntry) (hcmd : d.cmd = "save_map") (hmap : d.mapping = some arr) :
    processJsonCommand s (some d) =
      { s with
        ledMap := updateLedMap s.ledMap arr (min s.numLeds arr.length)
        store := writeStore s.store
          (updateLedMap s.ledMap arr (min s.numLeds arr.length)) (min s.numLeds MAX_LEDS)
        sent := s.sent ++ ["ack:save_map"] } := by
  simp [processJsonCommand, hcmd, hmap, saveLEDMapping]

/-- C7: a `SaveMap` with mapping array `arr` persists exactly the first
`min ledCount |arr|` entries (uint8-truncated, absent coordinates
defaulting to 0); store slots at indices `≥ |arr|` that agreed with the
in-RAM mapping keep their previous persisted value; slots at `≥
ledCount` are never touched; and array entries beyond the first
`ledCount` have no effect on any state. -/
theorem saveMap_bounded_effect (s : DeviceState) (arr : List MapEntry) (d : JsonCmdDoc)
    (hcmd : d.cmd = "save_map") (hmap : d.mapping = some arr)
    (hn : s.numLeds ≤ MAX_LEDS) (hml : s.numLeds ≤ s.ledMap.length) :
    (∀ i, i < min s.numLeds arr.length → i < s.store.length →
      (processJsonCommand s (some d)).store[i]? =
        some (packMapEntry
          (((arr.getD i default).x.getD 0) % 256, ((arr.getD i default).y.getD 0) % 256))) ∧
    (∀ i, arr.length ≤ i → i < s.numLeds →
      s.store[i]? = some (packMapEntry (s.ledMap.getD i (0, 0))) →
      (processJsonCommand s (some d)).store[i]? = s.store[i]?) ∧
    (∀ i, s.numLeds ≤ i →
      (processJsonCommand s (some d)).store[i]? = s.store[i]?) ∧
    processJsonCommand s (some d) =
      processJsonCommand s (some { d with mapping := some (arr.take s.numLeds) }) := by
  rw [processJsonCommand_saveMap s d arr hcmd hmap]
  have hmin : min s.numLeds MAX_LEDS = s.numLeds := Nat.min_eq_left hn
  refine ⟨?_, ?_, ?_, ?_⟩
  · intro i hi hist
    show (writeStore s.store
      (updateLedMap s.ledMap arr (min s.numLeds arr.length)) (min s.numLeds MAX_LEDS))[i]? = _
    rw [hmin, writeStore_getElem?_lt _ _ (by omega) hist,
      updateLedMap_getD_lt _ _ hi (by omega)]
  · intro i hia hin hagree
    show (writeStore s.store
      (updateLedMap s.ledMap arr (min s.numLeds arr.length)) (min s.numLeds MAX_LEDS))[i]? = _
    have hist : i < s.store.length := by
      rcases List.getElem?_eq_some_iff.mp hagree with ⟨h, _⟩
      exact h
    rw [hmin, writeStore_getElem?_lt _ _ hin hist,
      updateLedMap_getD_ge _ _ (by omega), ← hagree]
  · intro i hi
    show (writeStore s.store
      (updateLedMap s.ledMap arr (min s.numLeds arr.length)) (min s.numLeds MAX_LEDS))[i]? = _
    rw [hmin, writeStore_getElem?_ge _ _ hi]
  · rw [processJsonCommand_saveMap s { d with mapping := some (arr.take s.numLeds) }
      (arr.take s.numLeds) hcmd
      (show ({ d with mapping := some (arr.take s.numLeds) } : JsonCmdDoc).mapping =
        some (arr.take s.numLeds) from rfl)]
    have hlen : (arr.take s.numLeds).length = min s.numLeds arr.length := by
      simp [Nat.min_comm]
    have hmin2 : min s.numLeds (arr.take s.numLeds).length = min s.numLeds arr.length := by
      rw [hlen]
      omega
    have hupd : updateLedMap s.ledMap arr (min s.numLeds arr.length) =
        updateLedMap s.ledMap (arr.take s.numLeds) (min s.numLeds (arr.take s.numLeds).length) := by
      rw [hmin2]
      refine updateLedMap_congr _ (fun j hj => ?_)
      rw [List.getD_eq_getElem?_getD, List.getD_eq_getElem?_getD,
        List.getElem?_take_of_lt (by omega)]
    rw [← hupd]

/-- C7 witness: on a 2-LED device with a 3-slot store, a one-entry
`SaveMap` writes slot 0, keeps the agreed slot 1, never touches slot 2,
and equals the effect of the array truncated to `ledCount`. -/
theorem saveMap_bounded_effect_witness :
    (let s2 : DeviceState :=
      { espSample with numLeds := 2, leds := List.replicate 6 CRGB.black }
     let d : JsonCmdDoc := ⟨"save_map", none, none, some [⟨some 7, some 9⟩]⟩
     (processJsonCommand s2 (some d)).store[0]? = some (packMapEntry (7, 9)) ∧
       (processJsonCommand s2 (some d)).store[1]? = s2.store[1]? ∧
       (processJsonCommand s2 (some d)).store[2]? = s2.store[2]?) := by
  have h := saveMap_bounded_effect
    { espSample with numLeds := 2, leds := List.replicate 6 CRGB.black }
    [⟨some 7, some 9⟩] ⟨"save_map", none, none, some [⟨some 7, some 9⟩]⟩
    rfl rfl (by decide) (by decide)
  exact ⟨by simpa using h.1 0 (by decide) (by decide),
    h.2.1 1 (by decide) (by decide) (by decide),
    h.2.2.1 2 (by decide)⟩

/-! ## C5: a false start after MAGIC1 consumes the byte -/

/-- C5: in the got-MAGIC1 state any byte other than MAGIC2 sends the
decoder back to Idle with that byte consumed (shown for both the Nano
step and the ESP32 serial loop); concretely, on `[0xAD, 0xAD, 0xDA]`
the second `0xAD` does not begin a new frame and the `0xDA` is
discarded as Idle noise — the run ends in exactly the starting state
(only the byte timestamp advanced). -/
theorem nano_false_start_byte_consumed (t : Nat) (s : NanoState) (b : Nat) :
    (s.syncState = 1 → b ≠ MAGIC_BYTE_2 →
      nanoStep t s b = { s with syncState := 0, lastByteTime := t }) ∧
    (s.syncState = 0 → s.inJsonCmd = false →
      nanoRun t s [MAGIC_BYTE_1, MAGIC_BYTE_1, MAGIC_BYTE_2] =
        { s with lastByteTime := t }) ∧
    (∀ (parse : List Nat → Option JsonCmdDoc) (es : DeviceState) (bs : List Nat),
      es.serialSyncState = 1 → b ≠ MAGIC_BYTE_2 →
      serialLoop parse t es (b :: bs) =
        serialLoop parse t { es with lastSerialByte := t, serialSyncState := 0 } bs) := by
  refine ⟨?_, ?_, ?_⟩
  · intro h1 h2
    simp [nanoStep, h1, h2]
  · intro h1 h2
    simp [nanoRun, nanoStep, h1, h2, MAGIC_BYTE_1, MAGIC_BYTE_2]
  · intro parse es bs h1 hb
    simp [serialLoop, h1, hb]

/-- C5 witness: the concrete three-byte run on the sample Nano state,
and one concrete false-start step. -/
theorem nano_false_start_byte_consumed_witness :
    nanoRun 4 nanoSample [MAGIC_BYTE_1, MAGIC_BYTE_1, MAGIC_BYTE_2] =
        { nanoSample with lastByteTime := 4 } ∧
      nanoStep 4 { nanoSample with syncState := 1 } 7 =
        { { nanoSample with syncState := 1 } with syncState := 0, lastByteTime := 4 } ∧
      serialLoop noParse 4 { espSample with serialSyncState := 1 } [7] =
        serialLoop noParse 4
          { { espSample with serialSyncState := 1 } with
            lastSerialByte := 4
            serialSyncState := 0 } [] :=
  ⟨(nano_false_start_byte_consumed 4 nanoSample 0).2.1 rfl rfl,
    (nano_false_start_byte_consumed 4 { nanoSample with syncState := 1 } 7).1 rfl
      (by decide),
    (nano_false_start_byte_consumed 4 nanoSample 7).2.2 noParse
      { espSample with serialSyncState := 1 } [] rfl (by decide)⟩

/-! ## C6: command accumulation -/

theorem nanoProcessCommand_effects (s : NanoState) (cmd : List Nat) :
    (nanoProcessCommand s cmd).emittedCmds = s.emittedCmds ++ [cmd] ∧
    (nanoProcessCommand s cmd).cmdBuffer = s.cmdBuffer ∧
    (nanoProcessCommand s cmd).inJsonCmd = s.inJsonCmd ∧
    (nanoProcessCommand s cmd).syncState = s.syncState := by
  unfold nanoProcessCommand
  split_ifs <;> first
    | exact ⟨rfl, rfl, rfl, rfl⟩
    | (rename_i h
       cases hf : findSubIdx (bytes "\"value\":") cmd <;>
         exact ⟨rfl, rfl, rfl, rfl⟩)

theorem nanoStep_cmdBuffer_le (t : Nat) (s : NanoState) (b : Nat)
    (h : s.cmdBuffer.length ≤ 63) : (nanoStep t s b).cmdBuffer.length ≤ 63 := by
  simp only [nanoStep]
  split_ifs <;>
    simp_all [apply_ite (NanoState.cmdBuffer), apply_ite List.length]
  all_goals omega

theorem nanoRun_cmdBuffer_le (t : Nat) (input : List Nat) :
    ∀ s : NanoState, s.cmdBuffer.length ≤ 63 →
      (nanoRun t s input).cmdBuffer.length ≤ 63 := by
  induction input with
  | nil => intro s h; exact h
  | cons b bs ih =>
    intro s h
    exact ih _ (nanoStep_cmdBuffer_le t s b h)

/-- C6 counterexample: a `0xAD` byte arriving mid-accumulation (before
any `'}'` and with the 63-byte capacity far from exhausted) diverts the
Nano decoder into frame sync instead of being appended; the block later
emitted is `"{a}"`, not the input's brace-delimited block
`"{a\xADb}"`. -/
theorem nano_cmd_accumulation_hijacked_by_magic :
    (nanoRun 0 nanoSample [123, 97, 173, 98, 125]).emittedCmds = [[123, 97, 125]] ∧
      [[123, 97, 125]] ≠ [[123, 97, 173, 98, 125]] ∧
      (nanoRun 0 nanoSample [123, 97, 173]).syncState = 1 ∧
      (nanoRun 0 nanoSample [123, 97, 173]).cmdBuffer = [123, 97] ∧
      (nanoRun 0 nanoSample [123, 97, 173]).cmdBuffer.length < 63 := by
  decide

/-- C6 amended: on the Nano transport, after an opening `'{'` in Idle
each subsequent byte other than `0xAD` (which diverts the decoder to
frame sync, suspending accumulation) and `'{'` (which restarts the
buffer) is appended until `'}'` (exactly one command-text block is
emitted and accumulation ends) or until the 63-byte capacity is
exhausted (the accumulated bytes are discarded and nothing is
emitted); the accumulated text never exceeds the capacity.  (The ESP32
serial transports instead read the block inline, bounded by a 100 ms
window rather than a byte capacity.) -/
theorem nano_cmd_capacity_bounded (t : Nat) (s : NanoState) (b : Nat) (input : List Nat) :
    (s.cmdBuffer.length ≤ 63 → (nanoRun t s input).cmdBuffer.length ≤ 63) ∧
    (s.syncState = 0 → b = 123 →
      nanoStep t s b = { s with cmdBuffer := [123], inJsonCmd := true, lastByteTime := t }) ∧
    (s.syncState = 0 → s.inJsonCmd = true → 0 < s.cmdBuffer.length →
      s.cmdBuffer.length < 63 → b ≠ MAGIC_BYTE_1 → b ≠ 123 → b ≠ 125 →
      nanoStep t s b = { s with cmdBuffer := s.cmdBuffer ++ [b], lastByteTime := t }) ∧
    (s.syncState = 0 → s.inJsonCmd = true → 0 < s.cmdBuffer.length →
      s.cmdBuffer.length < 63 →
      (nanoStep t s 125).emittedCmds = s.emittedCmds ++ [s.cmdBuffer ++ [125]] ∧
        (nanoStep t s 125).cmdBuffer = [] ∧ (nanoStep t s 125).inJsonCmd = false) ∧
    (s.syncState = 0 → s.inJsonCmd = true → 0 < s.cmdBuffer.length →
      ¬(s.cmdBuffer.length < 63) → b ≠ MAGIC_BYTE_1 → b ≠ 123 →
      nanoStep t s b =
        { s with cmdBuffer := [], inJsonCmd := false, lastByteTime := t }) := by
  refine ⟨fun h => nanoRun_cmdBuffer_le t input s h, ?_, ?_, ?_, ?_⟩
  · intro h1 h2
    simp [nanoStep, h1, h2, MAGIC_BYTE_1]
  · intro h1 h2 h3 h4 h5 h6 h7
    simp [nanoStep, h1, h2, h3, h4, h5, h6, h7]
  · intro h1 h2 h3 h4
    have hstep : nanoStep t s 125 =
        { nanoProcessCommand { s with lastByteTime := t, cmdBuffer := s.cmdBuffer ++ [125] }
            (s.cmdBuffer ++ [125]) with
          cmdBuffer := [], inJsonCmd := false } := by
      simp [nanoStep, h1, h2, h3, h4, MAGIC_BYTE_1]
    obtain ⟨he, _, _, _⟩ := nanoProcessCommand_effects
      { s with lastByteTime := t, cmdBuffer := s.cmdBuffer ++ [125] }
      (s.cmdBuffer ++ [125])
    rw [hstep]
    exact ⟨by simpa using he, rfl, rfl⟩
  · intro h1 h2 h3 h4 h5 h6
    simp [nanoStep, h1, h2, h3, h4, h5, h6]

/-- C6 amended witness: concrete open, append, close (one emitted
block), and overflow-discard steps, plus the capacity bound on a run. -/
theorem nano_cmd_capacity_bounded_witness :
    (nanoRun 0 nanoSample [123, 97, 98, 125]).cmdBuffer.length ≤ 63 ∧
      nanoStep 0 nanoSample 123 =
        { nanoSample with cmdBuffer := [123], inJsonCmd := true, lastByteTime := 0 } ∧
      nanoStep 0 { nanoSample with inJsonCmd := true, cmdBuffer := [123, 97] } 98 =
        { nanoSample with inJsonCmd := true, cmdBuffer := [123, 97, 98], lastByteTime := 0 } ∧
      (nanoStep 0 { nanoSample with inJsonCmd := true, cmdBuffer := [123, 97] }
          125).emittedCmds = [[123, 97, 125]] ∧
      nanoStep 0
          { nanoSample with inJsonCmd := true, cmdBuffer := List.replicate 63 97 } 98 =
        { nanoSample with inJsonCmd := false, cmdBuffer := [], lastByteTime := 0 } := by
  refine ⟨(nano_cmd_capacity_bounded 0 nanoSample 0 [123, 97, 98, 125]).1 (by decide),
    (nano_cmd_capacity_bounded 0 nanoSample 123 []).2.1 rfl rfl, ?_, ?_, ?_⟩
  · have h := (nano_cmd_capacity_bounded 0
      { nanoSample with inJsonCmd := true, cmdBuffer := [123, 97] } 98 []).2.2.1
      rfl rfl (by decide) (by decide) (by decide) (by decide) (by decide)
    simpa using h
  · have h := ((nano_cmd_capacity_bounded 0
      { nanoSample with inJsonCmd := true, cmdBuffer := [123, 97] } 0 []).2.2.2.1
      rfl rfl (by decide) (by decide)).1
    simpa using h
  · have h := (nano_cmd_capacity_bounded 0
      { nanoSample with inJsonCmd := true, cmdBuffer := List.replicate 63 97 } 98
      []).2.2.2.2 rfl rfl (by decide) (by decide) (by decide) (by decide)
    simpa using h

/-! ## C1 and C4: the serial frame decoder -/

theorem serialLoop_nil (parse : List Nat → Option JsonCmdDoc) (t : Nat) (s : DeviceState) :
    serialLoop parse t s [] = s := by
  simp [serialLoop]

theorem serialLoop_idle_magic1 (parse : List Nat → Option JsonCmdDoc) (t : Nat)
    (s : DeviceState) (bs : List Nat) (h0 : s.serialSyncState = 0) :
    serialLoop parse t s (MAGIC_BYTE_1 :: bs) =
      serialLoop parse t { s with lastSerialByte := t, serialSyncState := 1 } bs := by
  simp [serialLoop, h0]

theorem serialLoop_got1_magic2 (parse : List Nat → Option JsonCmdDoc) (t : Nat)
    (s : DeviceState) (bs : List Nat) (h1 : s.serialSyncState = 1) :
    serialLoop parse t s (MAGIC_BYTE_2 :: bs) =
      serialLoop parse t
        { s with lastSerialByte := t, serialSyncState := 2, serialBuffer := [] } bs := by
  simp [serialLoop, h1]



theorem serialLoop_fill (parse : List Nat → Option JsonCmdDoc) (t : Nat) (bs : List Nat) :
    ∀ (s : DeviceState) (rest : List Nat), s.serialSyncState = 2 → bs ≠ [] →
      s.serialBuffer.length + bs.length = s.numLeds * 3 →
      serialLoop parse t s (bs ++ rest) =
        serialLoop parse t
          { s with
            lastSerialByte := t
            serialBuffer := s.serialBuffer ++ bs
            serialSyncState := 3 } rest := by
  induction bs with
  | nil => intro s rest h2 hne hlen; exact absurd rfl hne
  | cons b bs ih =>
    intro s rest h2 hne hlen
    by_cases hbs : bs = []
    · subst hbs
      have hfull : (s.serialBuffer ++ [b]).length ≥ s.numLeds * 3 := by
        simp at hlen ⊢
        omega
      simp [serialLoop, h2, hfull]
      intro hlt
      exfalso
      simp at hlen
      omega
    · have hnotfull : ¬((s.serialBuffer ++ [b]).length ≥ s.numLeds * 3) := by
        have : 0 < bs.length := List.length_pos.mpr hbs
        simp at hlen ⊢
        omega
      rw [List.cons_append]
      rw [show serialLoop parse t s (b :: (bs ++ rest)) =
        serialLoop parse t { s with lastSerialByte := t, serialBuffer := s.serialBuffer ++ [b] }
          (bs ++ rest) from by
        simp [serialLoop, h2, hnotfull]
        intro hge
        exfalso
        simp at hnotfull
        omega]
      rw [show serialLoop parse t
            { s with lastSerialByte := t, serialBuffer := s.serialBuffer ++ [b] } (bs ++ rest) =
          serialLoop parse t
            { s with
              lastSerialByte := t
              serialBuffer := (s.serialBuffer ++ [b]) ++ bs
              serialSyncState := 3 } rest from
        ih _ rest (by simp [h2]) hbs (by simp at hlen ⊢; omega)]
      simp


theorem serialLoop_checksum_ok (parse : List Nat → Option JsonCmdDoc) (t : Nat)
    (s : DeviceState) (b : Nat) (bs : List Nat) (h0 : s.serialSyncState ≠ 0)
    (h1 : s.serialSyncState ≠ 1) (h2 : s.serialSyncState ≠ 2)
    (heq : xorFold (s.serialBuffer.take (s.numLeds * 3)) = b) :
    serialLoop parse t s (b :: bs) =
      serialLoop parse t
        { applyLedColors { s with lastSerialByte := t } s.serialBuffer (s.numLeds * 3) t
            "USB" with
          serialSyncState := 0
          serialBuffer := [] } bs := by
  simp [serialLoop, h0, h1, h2, heq]

theorem serialLoop_checksum_bad (parse : List Nat → Option JsonCmdDoc) (t : Nat)
    (s : DeviceState) (b : Nat) (bs : List Nat) (h0 : s.serialSyncState ≠ 0)
    (h1 : s.serialSyncState ≠ 1) (h2 : s.serialSyncState ≠ 2)
    (hne : xorFold (s.serialBuffer.take (s.numLeds * 3)) ≠ b) :
    serialLoop parse t s (b :: bs) =
      serialLoop parse t
        { s with lastSerialByte := t, serialSyncState := 0, serialBuffer := [] } bs := by
  simp [serialLoop, h0, h1, h2, hne]

theorem xorFold_foldl_lt_256 : ∀ (l : List Nat) (acc : Nat), acc < 256 →
    (∀ b ∈ l, b < 256) → l.foldl Nat.xor acc < 256 := by
  intro l
  induction l with
  | nil => intro acc hacc _; simpa using hacc
  | cons b bs ih =>
    intro acc hacc hmem
    simp only [List.foldl_cons]
    apply ih
    · have hb : b < 256 := hmem b (by simp)
      have h8 : (256 : Nat) = 2 ^ 8 := by norm_num
      rw [h8] at hacc hb ⊢
      exact Nat.xor_lt_two_pow hacc hb
    · intro x hx
      exact hmem x (by simp [hx])

theorem xorFold_lt_256 (l : List Nat) (h : ∀ b ∈ l, b < 256) : xorFold l < 256 :=
  xorFold_foldl_lt_256 l 0 (by omega) h


/-- C1: from Idle, the byte sequence `[0xAD, 0xDA] ++ P ++ [xor P]`
with `|P| = ledCount * 3` (calibration off) applies exactly one frame
whose RGB triples equal `P` and returns the decoder to Idle; the same
sequence with the checksum byte replaced by `(xor P + 1) % 256` applies
no frame, leaves the LED buffer untouched, and also ends in Idle. -/
theorem frame_roundtrip (parse : List Nat → Option JsonCmdDoc) (t : Nat) (s : DeviceState)
    (P : List Nat) (hstate : s.serialSyncState = 0) (hcal : s.calibrationMode = false)
    (hn : 1 ≤ s.numLeds) (hlen : P.length = s.numLeds * 3)
    (hbytes : ∀ b ∈ P, b < 256) (hleds : s.numLeds ≤ s.leds.length) :
    ((handleSerialData parse t s
        (MAGIC_BYTE_1 :: MAGIC_BYTE_2 :: (P ++ [xorFold P]))).appliedFrames =
          s.appliedFrames ++ [P] ∧
      (handleSerialData parse t s
        (MAGIC_BYTE_1 :: MAGIC_BYTE_2 :: (P ++ [xorFold P]))).serialSyncState = 0 ∧
      ∀ i, i < s.numLeds →
        (handleSerialData parse t s
          (MAGIC_BYTE_1 :: MAGIC_BYTE_2 :: (P ++ [xorFold P]))).leds[i]? =
            some ⟨P.getD (3 * i) 0, P.getD (3 * i + 1) 0, P.getD (3 * i + 2) 0⟩) ∧
    ((handleSerialData parse t s
        (MAGIC_BYTE_1 :: MAGIC_BYTE_2 :: (P ++ [(xorFold P + 1) % 256]))).appliedFrames =
          s.appliedFrames ∧
      (handleSerialData parse t s
        (MAGIC_BYTE_1 :: MAGIC_BYTE_2 :: (P ++ [(xorFold P + 1) % 256]))).leds = s.leds ∧
      (handleSerialData parse t s
        (MAGIC_BYTE_1 :: MAGIC_BYTE_2 :: (P ++ [(xorFold P + 1) % 256]))).serialSyncState
          = 0) := by
  have hPne : P ≠ [] := by
    intro hP
    rw [hP] at hlen
    simp at hlen
    omega
  have htr : serialTimeoutReset s t = s := by
    simp [serialTimeoutReset, hstate]
  have hchain : ∀ c : Nat,
      handleSerialData parse t s (MAGIC_BYTE_1 :: MAGIC_BYTE_2 :: (P ++ [c])) =
        serialLoop parse t
          { s with
            lastSerialByte := t
            serialSyncState := 3
            serialBuffer := P } [c] := by
    intro c
    unfold handleSerialData
    rw [htr]
    rw [serialLoop_idle_magic1 parse t s _ hstate]
    rw [serialLoop_got1_magic2 parse t _ _ rfl]
    rw [serialLoop_fill parse t P _ [c] rfl hPne (by simpa using hlen)]
    simp
  have htake :
      (({ s with
            lastSerialByte := t
            serialSyncState := 3
            serialBuffer := P } : DeviceState).serialBuffer.take
        (({ s with
            lastSerialByte := t
            serialSyncState := 3
            serialBuffer := P } : DeviceState).numLeds * 3)) = P := by
    show P.take (s.numLeds * 3) = P
    rw [← hlen, List.take_length]
  constructor
  · have hgood := hchain (xorFold P)
    rw [serialLoop_checksum_ok parse t _ _ [] (by norm_num) (by norm_num) (by norm_num)
      (by rw [htake])] at hgood
    rw [serialLoop_nil] at hgood
    have hdiv : s.numLeds * 3 / 3 = s.numLeds := Nat.mul_div_cancel s.numLeds (by omega)
    refine ⟨?_, ?_, ?_⟩
    · rw [hgood]
      show (applyLedColors _ P (s.numLeds * 3) t "USB").appliedFrames = _
      simp [applyLedColors, hcal]
      rw [← hlen]
    · rw [hgood]
    · intro i hi
      rw [hgood]
      show (applyLedColors { s with
          lastSerialByte := t
          serialSyncState := 3
          serialBuffer := P } P (s.numLeds * 3) t "USB").leds[i]? = _
      rw [show (applyLedColors { s with
          lastSerialByte := t
          serialSyncState := 3
          serialBuffer := P } P (s.numLeds * 3) t "USB").leds =
        writeLeds s.leds P (min (s.numLeds * 3 / 3) s.numLeds) from by
          simp [applyLedColors, hcal]]
      rw [hdiv, Nat.min_self]
      exact writeLeds_getElem?_lt s.leds P hi (by omega)
  · have hx : xorFold P < 256 := xorFold_lt_256 P hbytes
    have hbad := hchain ((xorFold P + 1) % 256)
    rw [serialLoop_checksum_bad parse t _ _ [] (by norm_num) (by norm_num) (by norm_num)
      (by rw [htake]; omega)] at hbad
    rw [serialLoop_nil] at hbad
    rw [hbad]
    exact ⟨rfl, rfl, rfl⟩


theorem serialLoop_idle_brace (parse : List Nat → Option JsonCmdDoc) (t : Nat)
    (s : DeviceState) (bs : List Nat) (h0 : s.serialSyncState = 0) :
    serialLoop parse t s ((123 : Nat) :: bs) =
      serialLoop parse t
        (processJsonCommand { s with lastSerialByte := t }
          (parse (123 :: (readUntilClose bs).1)))
        (readUntilClose bs).2 := by
  simp [serialLoop, h0, MAGIC_BYTE_1]

theorem serialLoop_idle_noise (parse : List Nat → Option JsonCmdDoc) (t : Nat)
    (s : DeviceState) (b : Nat) (bs : List Nat) (h0 : s.serialSyncState = 0)
    (hb1 : b ≠ MAGIC_BYTE_1) (hb2 : b ≠ 123) :
    serialLoop parse t s (b :: bs) =
      serialLoop parse t { s with lastSerialByte := t } bs := by
  simp [serialLoop, h0, hb1, hb2]

theorem serialLoop_got1_other (parse : List Nat → Option JsonCmdDoc) (t : Nat)
    (s : DeviceState) (b : Nat) (bs : List Nat) (h1 : s.serialSyncState = 1)
    (hb : b ≠ MAGIC_BYTE_2) :
    serialLoop parse t s (b :: bs) =
      serialLoop parse t { s with lastSerialByte := t, serialSyncState := 0 } bs := by
  simp [serialLoop, h1, hb]

theorem serialLoop_read_full (parse : List Nat → Option JsonCmdDoc) (t : Nat)
    (s : DeviceState) (b : Nat) (bs : List Nat) (h2 : s.serialSyncState = 2)
    (hge : (s.serialBuffer ++ [b]).length ≥ s.numLeds * 3) :
    serialLoop parse t s (b :: bs) =
      serialLoop parse t
        { s with
          lastSerialByte := t
          serialBuffer := s.serialBuffer ++ [b]
          serialSyncState := 3 } bs := by
  simp only [serialLoop, h2]
  norm_num
  intro h
  exfalso
  simp at hge
  omega

theorem serialLoop_read_more (parse : List Nat → Option JsonCmdDoc) (t : Nat)
    (s : DeviceState) (b : Nat) (bs : List Nat) (h2 : s.serialSyncState = 2)
    (hlt : ¬((s.serialBuffer ++ [b]).length ≥ s.numLeds * 3)) :
    serialLoop parse t s (b :: bs) =
      serialLoop parse t
        { s with lastSerialByte := t, serialBuffer := s.serialBuffer ++ [b] } bs := by
  simp only [serialLoop, h2]
  norm_num
  intro h
  exfalso
  simp at hlt
  omega

theorem applyLedColors_preserves_serial (s : DeviceState) (data : List Nat)
    (dataLen t : Nat) (src : String) :
    (applyLedColors s data dataLen t src).numLeds = s.numLeds ∧
    (applyLedColors s data dataLen t src).serialSyncState = s.serialSyncState ∧
    (applyLedColors s data dataLen t src).serialBuffer = s.serialBuffer := by
  unfold applyLedColors
  split <;> exact ⟨rfl, rfl, rfl⟩

theorem processJsonCommand_preserves_serial (s : DeviceState) (parsed : Option JsonCmdDoc) :
    (processJsonCommand s parsed).numLeds = s.numLeds ∧
    (processJsonCommand s parsed).serialSyncState = s.serialSyncState ∧
    (processJsonCommand s parsed).serialBuffer = s.serialBuffer := by
  rcases parsed with _ | d
  · exact ⟨rfl, rfl, rfl⟩
  · show (processJsonCommand s (some d)).numLeds = s.numLeds ∧ _ ∧ _
    simp only [processJsonCommand]
    split_ifs <;> first
      | exact ⟨rfl, rfl, rfl⟩
      | (cases hm : d.mapping <;> simp [saveLEDMapping])



theorem serialLoop_inv (parse : List Nat → Option JsonCmdDoc) (t : Nat) :
    ∀ (N : Nat) (input : List Nat), input.length ≤ N → ∀ s : DeviceState,
      serialBufferInv s →
      serialBufferInv (serialLoop parse t s input) ∧
        (serialLoop parse t s input).numLeds = s.numLeds := by
  intro N
  induction N with
  | zero =>
    intro input hlen s hs
    have hnil : input = [] := List.length_eq_zero.mp (Nat.le_zero.mp hlen)
    subst hnil
    rw [serialLoop_nil]
    exact ⟨hs, rfl⟩
  | succ N ih =>
    intro input hlen s hs
    cases input with
    | nil =>
      rw [serialLoop_nil]
      exact ⟨hs, rfl⟩
    | cons b bs =>
      have hlen' : bs.length ≤ N := by
        simp at hlen
        omega
      obtain ⟨hn1, hle, hlt2⟩ := hs
      by_cases h0 : s.serialSyncState = 0
      · by_cases hb1 : b = MAGIC_BYTE_1
        · subst hb1
          rw [serialLoop_idle_magic1 parse t s bs h0]
          have hres := ih bs hlen' { s with lastSerialByte := t, serialSyncState := 1 }
            ⟨hn1, by simpa using hle, by simp⟩
          exact ⟨hres.1, by rw [hres.2]⟩
        · by_cases hb2 : b = 123
          · subst hb2
            rw [serialLoop_idle_brace parse t s bs h0]
            have hrest : (readUntilClose bs).2.length ≤ N :=
              le_trans (readUntilClose_snd_length_le bs) hlen'
            obtain ⟨hpn, hps, hpb⟩ := processJsonCommand_preserves_serial
              { s with lastSerialByte := t } (parse (123 :: (readUntilClose bs).1))
            have hres := ih _ hrest _
              ⟨by rw [hpn]; exact hn1,
               by rw [hpb, hpn]; simpa using hle,
               by rw [hps, hpb, hpn]; simpa using hlt2⟩
            refine ⟨hres.1, ?_⟩
            rw [hres.2, hpn]
          · rw [serialLoop_idle_noise parse t s b bs h0 hb1 hb2]
            have hres := ih bs hlen' { s with lastSerialByte := t }
              ⟨hn1, by simpa using hle, by simpa using hlt2⟩
            exact ⟨hres.1, by rw [hres.2]⟩
      · by_cases h1 : s.serialSyncState = 1
        · by_cases hb : b = MAGIC_BYTE_2
          · subst hb
            rw [serialLoop_got1_magic2 parse t s bs h1]
            have hres := ih bs hlen'
              { s with lastSerialByte := t, serialSyncState := 2, serialBuffer := [] }
              ⟨hn1, by simp, by intro _; simp; omega⟩
            exact ⟨hres.1, by rw [hres.2]⟩
          · rw [serialLoop_got1_other parse t s b bs h1 hb]
            have hres := ih bs hlen' { s with lastSerialByte := t, serialSyncState := 0 }
              ⟨hn1, by simpa using hle, by simp⟩
            exact ⟨hres.1, by rw [hres.2]⟩
        · by_cases h2 : s.serialSyncState = 2
          · by_cases hge : (s.serialBuffer ++ [b]).length ≥ s.numLeds * 3
            · rw [serialLoop_read_full parse t s b bs h2 hge]
              have hres := ih bs hlen'
                { s with
                  lastSerialByte := t
                  serialBuffer := s.serialBuffer ++ [b]
                  serialSyncState := 3 }
                ⟨hn1, by simp; have := hlt2 h2; omega, by simp⟩
              exact ⟨hres.1, by rw [hres.2]⟩
            · rw [serialLoop_read_more parse t s b bs h2 hge]
              have hres := ih bs hlen'
                { s with lastSerialByte := t, serialBuffer := s.serialBuffer ++ [b] }
                ⟨hn1, by simp; have := hlt2 h2; omega,
                 by intro _; simp; simp at hge; omega⟩
              exact ⟨hres.1, by rw [hres.2]⟩
          · by_cases hck :
              xorFold (s.serialBuffer.take (s.numLeds * 3)) = b
            · rw [serialLoop_checksum_ok parse t s b bs h0 h1 h2 hck]
              obtain ⟨han, has, hab⟩ := applyLedColors_preserves_serial
                { s with lastSerialByte := t } s.serialBuffer (s.numLeds * 3) t "USB"
              have hres := ih bs hlen'
                { applyLedColors { s with lastSerialByte := t } s.serialBuffer
                    (s.numLeds * 3) t "USB" with
                  serialSyncState := 0
                  serialBuffer := [] }
                ⟨by show 1 ≤ (applyLedColors { s with lastSerialByte := t } s.serialBuffer
                      (s.numLeds * 3) t "USB").numLeds
                    rw [han]
                    exact hn1,
                  Nat.zero_le _,
                  by intro h; simp at h⟩
              refine ⟨hres.1, ?_⟩
              rw [hres.2]
              exact han
            · rw [serialLoop_checksum_bad parse t s b bs h0 h1 h2 hck]
              have hres := ih bs hlen'
                { s with lastSerialByte := t, serialSyncState := 0, serialBuffer := [] }
                ⟨hn1, by simp, by simp⟩
              exact ⟨hres.1, by rw [hres.2]⟩


/-- C1 witness: the 1-LED sample decodes `[0xAD, 0xDA, 1, 2, 3, xor]`
into exactly one applied frame, and the off-by-one checksum leaves the
LED buffer untouched. -/
theorem frame_roundtrip_witness :
    (handleSerialData noParse 5 espSample
        (MAGIC_BYTE_1 :: MAGIC_BYTE_2 :: ([1, 2, 3] ++ [xorFold [1, 2, 3]]))).appliedFrames =
      espSample.appliedFrames ++ [[1, 2, 3]] ∧
      (handleSerialData noParse 5 espSample
        (MAGIC_BYTE_1 :: MAGIC_BYTE_2 ::
          ([1, 2, 3] ++ [(xorFold [1, 2, 3] + 1) % 256]))).leds = espSample.leds :=
  ⟨(frame_roundtrip noParse 5 espSample [1, 2, 3] rfl rfl (by decide) (by decide)
      (by decide) (by decide)).1.1,
    (frame_roundtrip noParse 5 espSample [1, 2, 3] rfl rfl (by decide) (by decide)
      (by decide) (by decide)).2.2.1⟩

/-- C4 amended: the decoder does not capture `ledCount` at frame
start — state 2 re-reads the global `numLeds` on every byte — but as
long as `numLeds` is unchanged while `handleSerialData` runs, the
partial payload buffer never exceeds `numLeds * 3` bytes. -/
theorem payload_bound_fixed_count (parse : List Nat → Option JsonCmdDoc) (t : Nat)
    (s : DeviceState) (input : List Nat) (hinv : serialBufferInv s) :
    serialBufferInv (handleSerialData parse t s input) ∧
      (handleSerialData parse t s input).numLeds = s.numLeds ∧
      (handleSerialData parse t s input).serialBuffer.length ≤ s.numLeds * 3 := by
  unfold handleSerialData
  have hreset : serialBufferInv (serialTimeoutReset s t) ∧
      (serialTimeoutReset s t).numLeds = s.numLeds := by
    unfold serialTimeoutReset
    split
    · exact ⟨⟨hinv.1, Nat.zero_le _, by intro h; simp at h⟩, rfl⟩
    · exact ⟨hinv, rfl⟩
  obtain ⟨h1, h2⟩ := hreset
  have hr := serialLoop_inv parse t input.length input le_rfl _ h1
  refine ⟨hr.1, by rw [hr.2, h2], ?_⟩
  have hb := hr.1.2.1
  rw [hr.2, h2] at hb
  exact hb

/-- C4 amended witness: draining a full valid frame on the sample
state keeps the buffer within `numLeds * 3`. -/
theorem payload_bound_fixed_count_witness :
    serialBufferInv (handleSerialData noParse 0 espSample [173, 218, 9]) ∧
      (handleSerialData noParse 0 espSample [173, 218, 9]).serialBuffer.length ≤
        espSample.numLeds * 3 :=
  ⟨(payload_bound_fixed_count noParse 0 espSample [173, 218, 9]
      ⟨by decide, by decide, fun h => absurd h (by decide)⟩).1,
    (payload_bound_fixed_count noParse 0 espSample [173, 218, 9]
      ⟨by decide, by decide, fun h => absurd h (by decide)⟩).2.2⟩

/-- C4 counterexample: a frame starts with `ledCount = 1` (payload
size 3); after two payload bytes the web handler raises `ledCount` to
2; two further bytes grow the partial buffer to 4 bytes — exceeding
the `1 * 3` implied when decoding started — with the decoder still in
`ReadingPayload`.  The captured-at-frame-start payload length the claim
asserts does not exist in the code. -/
theorem payload_bound_counterexample :
    ((handleSerialData noParse 0 espSample [173, 218, 9, 9]).serialSyncState = 2 ∧
      (handleSerialData noParse 0 espSample [173, 218, 9, 9]).numLeds = 1 ∧
      (handleSerialData noParse 0 espSample [173, 218, 9, 9]).serialBuffer.length = 2) ∧
      (handleSerialData noParse 0
        (webSaveLeds (handleSerialData noParse 0 espSample [173, 218, 9, 9]) 2)
        [7, 7]).serialSyncState = 2 ∧
      (handleSerialData noParse 0
        (webSaveLeds (handleSerialData noParse 0 espSample [173, 218, 9, 9]) 2)
        [7, 7]).serialBuffer.length = 4 ∧
      ¬((handleSerialData noParse 0
          (webSaveLeds (handleSerialData noParse 0 espSample [173, 218, 9, 9]) 2)
          [7, 7]).serialBuffer.length ≤
        (handleSerialData noParse 0 espSample [173, 218, 9, 9]).numLeds * 3) := by
  have h1 : handleSerialData noParse 0 espSample [173, 218, 9, 9] =
      { espSample with
        lastSerialByte := 0
        serialSyncState := 2
        serialBuffer := [9, 9] } := by
    simp [handleSerialData, serialTimeoutReset, serialLoop, espSample, MAGIC_BYTE_1,
      MAGIC_BYTE_2, noParse]
  rw [h1]
  have h2 : webSaveLeds
      ({ espSample with
        lastSerialByte := 0
        serialSyncState := 2
        serialBuffer := [9, 9] } : DeviceState) 2 =
      { espSample with
        numLeds := 2
        lastSerialByte := 0
        serialSyncState := 2
        serialBuffer := [9, 9] } := by
    simp [webSaveLeds, MAX_LEDS, espSample]
  rw [h2]
  have h3 : handleSerialData noParse 0
      ({ espSample with
        numLeds := 2
        lastSerialByte := 0
        serialSyncState := 2
        serialBuffer := [9, 9] } : DeviceState) [7, 7] =
      { espSample with
        numLeds := 2
        lastSerialByte := 0
        serialSyncState := 2
        serialBuffer := [9, 9, 7, 7] } := by
    simp [handleSerialData, serialTimeoutReset, serialLoop, espSample, MAGIC_BYTE_1,
      MAGIC_BYTE_2, noParse, SERIAL_TIMEOUT_MS]
  rw [h3]
  refine ⟨⟨rfl, rfl, rfl⟩, rfl, rfl, by simp [espSample]⟩

end Ambilight
